import Mathlib

/-!
Shallow embedding of two FoundationDB source files and proofs checking the
natural-language specification of the Encrypt Key Proxy (EKP) against them:

* fdbclient/RESTUtils.actor.cpp — REST URL parsing, REST client knobs and
  the pooled-connection abstraction;
* fdbserver/EncryptKeyProxy.actor.cpp — the cipher-key validity calculator,
  the EKP caches and their insertion paths, the refresher sweeps and the
  request-handler error classification.

Machine integers (int64_t) are modelled as Int; wall-clock now() values and
knob values appear as explicit parameters. Exceptions are modelled with
Except or with explicit outcome types.
-/

namespace FDB

/-- Error values thrown by the embedded REST code paths
(rest_unsupported_protocol, rest_invalid_uri, rest_connectpool_key_not_found,
rest_invalid_rest_client_knob). -/
inductive RESTError where
  | unsupportedProtocol
  | invalidUri
  | connectPoolKeyNotFound
  | invalidClientKnob
deriving DecidableEq, Repr

/-- flow StringRef.eat(sep): split at the first occurrence of the separator
substring; the part before it is returned and the remainder after the
separator is kept. If the separator does not occur, the whole string is
returned and the remainder is empty. -/
def eatSubstr (sep : List Char) : List Char → List Char × List Char
  | [] => ([], [])
  | c :: rest =>
    if List.isPrefixOf sep (c :: rest) then ([], List.drop sep.length (c :: rest))
    else
      let (a, b) := eatSubstr sep rest
      (c :: a, b)

/-- flow StringRef.eatAny(seps, foundSeparator): split at the first character
belonging to seps; returns (part before it, the separator char found, the
remainder after it). If no such character occurs, the whole string is
returned, no separator is recorded and the remainder is empty. -/
def eatAnyChar (seps : List Char) : List Char → List Char × Option Char × List Char
  | [] => ([], none, [])
  | c :: rest =>
    if seps.contains c then ([], some c, rest)
    else
      let (a, f, b) := eatAnyChar seps rest
      (c :: a, f, b)

/-- RESTConnectionType.getConnectionType over the two-entry table
supportedConnTypes of RESTUtils.actor.cpp: http is not secure, https is
secure, anything else is unsupported (returns none, the caller throws
rest_unsupported_protocol). The returned Bool is the secure flag. -/
def getConnectionType (protocol : List Char) : Option Bool :=
  if protocol = "http".toList then some false
  else if protocol = "https".toList then some true
  else none

/-- Result of RESTUrl.parseUrl: connection-type secure flag, host, service,
resource and request parameters (query). -/
structure RESTUrl where
  secure : Bool
  host : List Char
  service : List Char
  resource : List Char
  reqParameters : List Char
deriving DecidableEq, Repr

/-- RESTUrl.parseUrl from RESTUtils.actor.cpp. knobNotSecureAllowed models
CLIENT_KNOBS.REST_KMS_ENABLE_NOT_SECURE_CONNECTION. The protocol-table
lookup throws rest_unsupported_protocol, which escapes the try block
unchanged; the empty-host check throws a std::string which the catch block
converts to rest_invalid_uri. Note that when the first separator after the
host is a question mark the source leaves both resource and reqParameters
empty (there is no else branch on foundSeparator). -/
def parseUrl (knobNotSecureAllowed : Bool) (fullUrl : List Char) : Except RESTError RESTUrl :=
  let (p, t1) := eatSubstr "://".toList fullUrl
  let protocol := p.map Char.toLower
  match getConnectionType protocol with
  | none => .error .unsupportedProtocol
  | some secure =>
    if !secure && !knobNotSecureAllowed then .error .unsupportedProtocol
    else
      let (hostPort, foundSeparator, t2) := eatAnyChar "/?".toList t1
      let (resource, reqParameters) :=
        if foundSeparator = some '/' then eatSubstr "?".toList t2
        else ([], [])
      let (h, service) := eatSubstr ":".toList hostPort
      if h.length = 0 then .error .invalidUri
      else .ok ⟨secure, h, service, resource, reqParameters⟩

/-- C9: parsing the URL https with host, service 80 and resource foo/bar
yields a secure connection, host, service 80, resource foo/bar and an empty
query; parsing the variant without a service but with query p1,p2 yields a
secure connection, host, empty service, resource foo/bar and query p1,p2
(spec scenarios S1 and S2). -/
theorem rest_url_parse_examples :
    parseUrl false "https://host:80/foo/bar".toList =
      .ok ⟨true, "host".toList, "80".toList, "foo/bar".toList, []⟩ ∧
    parseUrl false "https://host/foo/bar?p1,p2".toList =
      .ok ⟨true, "host".toList, [], "foo/bar".toList, "p1,p2".toList⟩ := by
  exact ⟨rfl, rfl⟩

/-! ## Validity calculator (EncryptKeyProxy.actor.cpp) -/

/-- std.numeric_limits int64_t max, used by the source as the never-refresh
and never-expire sentinel. -/
def int64Max : Int := 2 ^ 63 - 1

/-- computeCipherRefreshTS from EncryptKeyProxy.actor.cpp. currTS is the
now() value taken by the caller; defaultTTL models
FLOW_KNOBS.ENCRYPT_CIPHER_KEY_CACHE_TTL. -/
def computeCipherRefreshTS (refreshInterval : Option Int) (currTS defaultTTL : Int) : Int :=
  match refreshInterval with
  | some r =>
    if r < 0 then int64Max
    else if r > 0 then currTS + r
    else currTS + defaultTTL
  | none => currTS + defaultTTL

/-- computeCipherExpireTS from EncryptKeyProxy.actor.cpp; refreshAtTS is the
already-computed refresh timestamp. -/
def computeCipherExpireTS (expiryInterval : Option Int) (currTS refreshAtTS : Int) : Int :=
  match expiryInterval with
  | some e =>
    if e < 0 then int64Max
    else if e > 0 then currTS + e
    else refreshAtTS
  | none => refreshAtTS

/-- CipherKeyValidityTS struct from EncryptKeyProxy.actor.cpp. -/
structure CipherKeyValidityTS where
  refreshAtTS : Int
  expAtTS : Int
deriving DecidableEq, Repr

/-- getCipherKeyValidityTS from EncryptKeyProxy.actor.cpp, with now() and the
default TTL knob passed explicitly. -/
def getCipherKeyValidityTS (refreshInterval expiryInterval : Option Int)
    (currTS defaultTTL : Int) : CipherKeyValidityTS :=
  let r := computeCipherRefreshTS refreshInterval currTS defaultTTL
  ⟨r, computeCipherExpireTS expiryInterval currTS r⟩

/-- C4 counterexample: with hints refreshAfterSec = -1 and expireAfterSec = 1
at currTS = 100 the calculator yields refreshAt = int64Max and
expireAt = 101, so refreshAt is not at most expireAt. -/
theorem validity_refresh_gt_expire_cex :
    ¬ ((getCipherKeyValidityTS (some (-1)) (some 1) 100 10).refreshAtTS ≤
        (getCipherKeyValidityTS (some (-1)) (some 1) 100 10).expAtTS) := by
  decide

/-- C4 amended: refreshAt ≤ expireAt holds whenever the expire hint is absent
or not positive, provided the computed refresh timestamp is within the int64
range; a positive expire hint can produce expireAt strictly below refreshAt. -/
theorem validity_refresh_le_expire_of_nonpos_expiry
    (rh e : Option Int) (currTS defaultTTL : Int)
    (hE : e = none ∨ ∃ v, e = some v ∧ v ≤ 0)
    (hR : computeCipherRefreshTS rh currTS defaultTTL ≤ int64Max) :
    (getCipherKeyValidityTS rh e currTS defaultTTL).refreshAtTS ≤
      (getCipherKeyValidityTS rh e currTS defaultTTL).expAtTS := by
  rcases hE with h | ⟨v, hv, hvle⟩ <;> subst_vars <;>
    simp only [getCipherKeyValidityTS, computeCipherExpireTS] <;> omega

/-- Witness for the amended C4 theorem at a concrete input. -/
theorem validity_refresh_le_expire_of_nonpos_expiry_witness :
    (getCipherKeyValidityTS (some 5) (some 0) 100 10).refreshAtTS ≤
      (getCipherKeyValidityTS (some 5) (some 0) 100 10).expAtTS :=
  validity_refresh_le_expire_of_nonpos_expiry (some 5) (some 0) 100 10
    (Or.inr ⟨0, rfl, le_refl 0⟩) (by decide)

/-- C7: the validity calculator implements the sentinel table: a negative
refresh hint yields refreshAt = int64Max; a negative expire hint yields
expireAt = int64Max; a zero or absent refresh hint yields
refreshAt = currTS + defaultTTL; a zero or absent expire hint yields
expireAt = refreshAt; positive hints yield currTS plus the hint. -/
theorem validity_sentinel_table (currTS defaultTTL rAt r e : Int) :
    (r < 0 → computeCipherRefreshTS (some r) currTS defaultTTL = int64Max) ∧
    (e < 0 → computeCipherExpireTS (some e) currTS rAt = int64Max) ∧
    computeCipherRefreshTS (some 0) currTS defaultTTL = currTS + defaultTTL ∧
    computeCipherRefreshTS none currTS defaultTTL = currTS + defaultTTL ∧
    computeCipherExpireTS (some 0) currTS rAt = rAt ∧
    computeCipherExpireTS none currTS rAt = rAt ∧
    (0 < r → computeCipherRefreshTS (some r) currTS defaultTTL = currTS + r) ∧
    (0 < e → computeCipherExpireTS (some e) currTS rAt = currTS + e) := by
  refine ⟨?_, ?_, ?_, ?_, ?_, ?_, ?_, ?_⟩ <;> intros <;>
    simp only [computeCipherRefreshTS, computeCipherExpireTS] <;>
    split_ifs <;> omega

/-- Witness for the C7 sentinel-table theorem at concrete inputs. -/
theorem validity_sentinel_table_witness :
    computeCipherRefreshTS (some (-1)) 100 10 = int64Max ∧
    computeCipherExpireTS (some 7) 100 200 = 107 :=
  ⟨(validity_sentinel_table 100 10 200 (-1) 7).1 (by decide),
   (validity_sentinel_table 100 10 200 (-1) 7).2.2.2.2.2.2.2 (by decide)⟩

/-- Two's-complement wrap of an unbounded integer into the int64 range; the
effect of an int64_t addition overflowing on common targets (the overflow
itself is undefined behavior in the source language). -/
def wrap64 (n : Int) : Int := (n + 2 ^ 63) % 2 ^ 64 - 2 ^ 63

/-- computeCipherRefreshTS with the int64_t arithmetic of the source made
explicit: the sums currTS + hint and currTS + defaultTTL are int64
additions, so they wrap on overflow. -/
def computeCipherRefreshTS64 (refreshInterval : Option Int) (currTS defaultTTL : Int) : Int :=
  match refreshInterval with
  | some r =>
    if r < 0 then int64Max
    else if r > 0 then wrap64 (currTS + r)
    else wrap64 (currTS + defaultTTL)
  | none => wrap64 (currTS + defaultTTL)

/-- computeCipherExpireTS with the int64_t addition made explicit. -/
def computeCipherExpireTS64 (expiryInterval : Option Int) (currTS refreshAtTS : Int) : Int :=
  match expiryInterval with
  | some e =>
    if e < 0 then int64Max
    else if e > 0 then wrap64 (currTS + e)
    else refreshAtTS
  | none => refreshAtTS

/-- getCipherKeyValidityTS over the int64-wrapping arithmetic. -/
def getCipherKeyValidityTS64 (refreshInterval expiryInterval : Option Int)
    (currTS defaultTTL : Int) : CipherKeyValidityTS :=
  let r := computeCipherRefreshTS64 refreshInterval currTS defaultTTL
  ⟨r, computeCipherExpireTS64 expiryInterval currTS r⟩

/-- C8 counterexample: at now() = 1 the in-range int64 hint
refreshAfterSec = int64Max makes the int64 sum currTS + hint overflow and
wrap to a negative value, so the output is not strictly positive and
ASSERT(refreshAtTS > 0) does not hold. -/
theorem validity_refresh_overflow_cex :
    (0 : Int) < 1 ∧
    ¬ (0 < computeCipherRefreshTS64 (some int64Max) 1 10) := by
  exact ⟨by decide, by decide⟩

theorem wrap64_eq_self (n : Int) (h0 : -(2 ^ 63) ≤ n) (h1 : n ≤ int64Max) :
    wrap64 n = n := by
  have h63 : ((2 : Int) ^ 63) = 9223372036854775808 := by norm_num
  have h64 : ((2 : Int) ^ 64) = 18446744073709551616 := by norm_num
  have hmax : int64Max = 9223372036854775807 := by norm_num [int64Max]
  have hmod : (n + 2 ^ 63) % 2 ^ 64 = n + 2 ^ 63 :=
    Int.emod_eq_of_lt (by omega) (by omega)
  simp only [wrap64, hmod]
  omega

theorem computeCipherRefreshTS64_pos (rh : Option Int) (currTS defaultTTL : Int)
    (hc : 0 ≤ currTS) (ht : 0 < defaultTTL)
    (hr : ∀ r, rh = some r → 0 < r → currTS + r ≤ int64Max)
    (httl : currTS + defaultTTL ≤ int64Max) :
    0 < computeCipherRefreshTS64 rh currTS defaultTTL := by
  have h63 : ((2 : Int) ^ 63) = 9223372036854775808 := by norm_num
  have hmax : int64Max = 9223372036854775807 := by norm_num [int64Max]
  have httl' : wrap64 (currTS + defaultTTL) = currTS + defaultTTL :=
    wrap64_eq_self _ (by omega) httl
  rcases rh with _ | r
  · simp only [computeCipherRefreshTS64, httl']
    omega
  · simp only [computeCipherRefreshTS64]
    by_cases h1 : r < 0
    · simp only [h1, if_true]
      omega
    · by_cases h2 : r > 0
      · have hb := hr r rfl h2
        have hw : wrap64 (currTS + r) = currTS + r := wrap64_eq_self _ (by omega) hb
        simp only [h1, h2, if_false, if_true, hw]
        omega
      · simp only [h1, h2, if_false, httl']
        omega

theorem computeCipherExpireTS64_pos (eh : Option Int) (currTS rAt : Int)
    (hc : 0 ≤ currTS) (hrAt : 0 < rAt)
    (he : ∀ e, eh = some e → 0 < e → currTS + e ≤ int64Max) :
    0 < computeCipherExpireTS64 eh currTS rAt := by
  have h63 : ((2 : Int) ^ 63) = 9223372036854775808 := by norm_num
  have hmax : int64Max = 9223372036854775807 := by norm_num [int64Max]
  rcases eh with _ | e
  · simpa only [computeCipherExpireTS64] using hrAt
  · simp only [computeCipherExpireTS64]
    by_cases h1 : e < 0
    · simp only [h1, if_true]
      omega
    · by_cases h2 : e > 0
      · have hb := he e rfl h2
        have hw : wrap64 (currTS + e) = currTS + e := wrap64_eq_self _ (by omega) hb
        simp only [h1, h2, if_false, if_true, hw]
        omega
      · simp only [h1, h2, if_false]
        omega

/-- C8 amended: over the int64 arithmetic of the source, for every pair of
optional hints such that each positive hint keeps currTS + hint within the
int64 range and currTS + defaultTTL is in range (no overflow), and given
the runtime facts that now() is nonnegative and the cache-TTL knob is
positive, both outputs of the validity calculator are strictly positive —
the two source assertions hold — and when both hints are absent both
outputs equal currTS + defaultTTL. Without the no-overflow condition the
positivity assertion is not guaranteed (see the counterexample). -/
theorem validity_outputs_positive_no_overflow (rh eh : Option Int)
    (currTS defaultTTL : Int)
    (hc : 0 ≤ currTS) (ht : 0 < defaultTTL)
    (hr : ∀ r, rh = some r → 0 < r → currTS + r ≤ int64Max)
    (he : ∀ e, eh = some e → 0 < e → currTS + e ≤ int64Max)
    (httl : currTS + defaultTTL ≤ int64Max) :
    0 < (getCipherKeyValidityTS64 rh eh currTS defaultTTL).refreshAtTS ∧
    0 < (getCipherKeyValidityTS64 rh eh currTS defaultTTL).expAtTS ∧
    getCipherKeyValidityTS64 none none currTS defaultTTL =
      ⟨currTS + defaultTTL, currTS + defaultTTL⟩ := by
  have hpos := computeCipherRefreshTS64_pos rh currTS defaultTTL hc ht hr httl
  have h63 : ((2 : Int) ^ 63) = 9223372036854775808 := by norm_num
  have hmax : int64Max = 9223372036854775807 := by norm_num [int64Max]
  have httl' : wrap64 (currTS + defaultTTL) = currTS + defaultTTL :=
    wrap64_eq_self _ (by omega) httl
  refine ⟨hpos, computeCipherExpireTS64_pos eh currTS _ hc hpos he, ?_⟩
  simp only [getCipherKeyValidityTS64, computeCipherRefreshTS64,
    computeCipherExpireTS64, httl']

/-- Witness for the amended C8 theorem at a concrete input. -/
theorem validity_outputs_positive_no_overflow_witness :
    0 < (getCipherKeyValidityTS64 none none 100 10).refreshAtTS ∧
    0 < (getCipherKeyValidityTS64 none none 100 10).expAtTS ∧
    getCipherKeyValidityTS64 none none 100 10 = ⟨110, 110⟩ :=
  validity_outputs_positive_no_overflow none none 100 10 (by decide) (by decide)
    (fun r h => nomatch h) (fun e h => nomatch h) (by decide)

/-! ## Connection pool (RESTUtils.actor.cpp) -/

/-- RESTConnectionPool.ReusableConnection: a connection handle (identified
here by a numeric id) with its expiration timestamp. -/
structure ReusableConnection where
  connId : Nat
  expirationTime : Int
deriving DecidableEq, Repr

/-- RESTConnectionPoolKey: the (host, service) pair. -/
abbrev RESTConnectionPoolKey := String × String

/-- connectionPoolMap: a map from pool key to a FIFO queue of reusable
connections, modelled as an association list whose queues have their front
at the head. -/
abbrev PoolMap := List (RESTConnectionPoolKey × List ReusableConnection)

/-- std::unordered_map::find on the pool map. -/
def mapFind : PoolMap → RESTConnectionPoolKey → Option (List ReusableConnection)
  | [], _ => none
  | (k', q) :: rest, k => if k' = k then some q else mapFind rest k

/-- std::unordered_map::insert — a no-op when the key is already present. -/
def mapInsert : PoolMap → RESTConnectionPoolKey → List ReusableConnection → PoolMap
  | [], k, q => [(k, q)]
  | (k', q') :: rest, k, q =>
    if k' = k then (k', q') :: rest else (k', q') :: mapInsert rest k q

/-- In-place replacement of the queue held at an existing key (mutation of
poolItr->second through the iterator); a no-op when the key is absent. -/
def mapUpdate : PoolMap → RESTConnectionPoolKey → List ReusableConnection → PoolMap
  | [], _, _ => []
  | (k', q') :: rest, k, q =>
    if k' = k then (k', q) :: rest else (k', q') :: mapUpdate rest k q

/-- The drain loop of connect_impl: pop from the front of the queue until a
connection with expirationTime > now is found (it is removed and returned),
or the queue is exhausted. The second component is the queue left behind. -/
def popUntilValid (nowTS : Int) :
    List ReusableConnection → Option ReusableConnection × List ReusableConnection
  | [] => (none, [])
  | rconn :: rest =>
    if rconn.expirationTime > nowTS then (some rconn, rest)
    else popUntilValid nowTS rest

/-- The visible outcome of connect_impl: the pool map as left behind, the
connection returned to the caller, and whether a new connection was made. -/
structure ConnectResult where
  pool : PoolMap
  returned : ReusableConnection
  createdNew : Bool
deriving DecidableEq, Repr

/-- connect_impl from RESTUtils.actor.cpp with the pool state passed
explicitly. nowTS is now() at the call; freshId identifies the IConnection
created when no pooled connection is usable. When the drain loop finds a
connection expiring in the future it is returned and the drained queue is
left in the map. Otherwise a new connection with expirationTime
nowTS + maxConnLife is constructed and connectionPoolMap.insert is called,
which on a std map does nothing when the key is already present. -/
def connect_impl (pool : PoolMap) (connectKey : RESTConnectionPoolKey)
    (nowTS maxConnLife : Int) (freshId : Nat) : ConnectResult :=
  match mapFind pool connectKey with
  | some q =>
    match popUntilValid nowTS q with
    | (some rconn, qRest) => ⟨mapUpdate pool connectKey qRest, rconn, false⟩
    | (none, qRest) =>
      let reusableConn : ReusableConnection := ⟨freshId, nowTS + maxConnLife⟩
      ⟨mapInsert (mapUpdate pool connectKey qRest) connectKey [reusableConn],
        reusableConn, true⟩
  | none =>
    let reusableConn : ReusableConnection := ⟨freshId, nowTS + maxConnLife⟩
    ⟨mapInsert pool connectKey [reusableConn], reusableConn, true⟩

theorem mapFind_mapInsert_self (m : PoolMap) (k : RESTConnectionPoolKey)
    (q : List ReusableConnection) :
    mapFind (mapInsert m k q) k = some ((mapFind m k).getD q) := by
  induction m with
  | nil => simp [mapInsert, mapFind]
  | cons hd tl ih =>
    obtain ⟨k', q'⟩ := hd
    by_cases h : k' = k <;> simp [mapInsert, mapFind, h, ih]

theorem mapFind_mapUpdate_self (m : PoolMap) (k : RESTConnectionPoolKey)
    (q : List ReusableConnection) :
    mapFind (mapUpdate m k q) k = (mapFind m k).map (fun _ => q) := by
  induction m with
  | nil => simp [mapUpdate, mapFind]
  | cons hd tl ih =>
    obtain ⟨k', q'⟩ := hd
    by_cases h : k' = k <;> simp [mapUpdate, mapFind, h, ih]

theorem popUntilValid_none_empty (nowTS : Int) (q : List ReusableConnection)
    (h : (popUntilValid nowTS q).1 = none) : (popUntilValid nowTS q).2 = [] := by
  induction q with
  | nil => rfl
  | cons c rest ih =>
    by_cases hc : c.expirationTime > nowTS
    · simp [popUntilValid, hc] at h
    · simp only [popUntilValid, hc, if_false] at h ⊢
      exact ih h

/-- The pool used in the C1 counterexample: the key holds a single
connection that is already expired at nowTS = 10. -/
def cexPool : PoolMap := [(("host", "80"), [⟨0, 5⟩])]

/-- C1 counterexample: connect on a key whose queue holds only an expired
connection creates a new connection, but the map insert is a no-op because
the key is still present in the map, so the newly created connection is not
in the queue for that pool key when connect returns it. -/
theorem connect_new_conn_not_in_queue_cex :
    (connect_impl cexPool ("host", "80") 10 100 1).createdNew = true ∧
    ¬ ((connect_impl cexPool ("host", "80") 10 100 1).returned ∈
        (mapFind (connect_impl cexPool ("host", "80") 10 100 1).pool ("host", "80")).getD []) := by
  exact ⟨rfl, by decide⟩

/-- C1 amended: when connect creates a new connection, that connection is in
the queue for the pool key at return exactly when the key was absent from
the pool map at the start of the call; when the key was already present
(its queue exhausted of unexpired entries) the map insert is a no-op and the
new connection is not pooled. -/
theorem connect_new_conn_in_queue_iff_key_absent
    (pool : PoolMap) (k : RESTConnectionPoolKey) (nowTS maxConnLife : Int) (freshId : Nat)
    (h : (connect_impl pool k nowTS maxConnLife freshId).createdNew = true) :
    ((connect_impl pool k nowTS maxConnLife freshId).returned ∈
        (mapFind (connect_impl pool k nowTS maxConnLife freshId).pool k).getD []) ↔
      mapFind pool k = none := by
  cases hfind : mapFind pool k with
  | none =>
    simp [connect_impl, hfind, mapFind_mapInsert_self]
  | some q =>
    rcases hpop : popUntilValid nowTS q with ⟨found, qRest⟩
    cases found with
    | some rconn =>
      exfalso
      simp [connect_impl, hfind, hpop] at h
    | none =>
      have hempty : qRest = [] := by
        have := popUntilValid_none_empty nowTS q (by rw [hpop])
        rwa [hpop] at this
      subst hempty
      simp [connect_impl, hfind, hpop, mapFind_mapInsert_self, mapFind_mapUpdate_self]

/-- Witness for the amended C1 theorem at a concrete input with the key
absent from the pool. -/
theorem connect_new_conn_in_queue_iff_key_absent_witness :
    ((connect_impl [] ("host", "80") 10 100 1).returned ∈
        (mapFind (connect_impl [] ("host", "80") 10 100 1).pool ("host", "80")).getD []) ↔
      mapFind ([] : PoolMap) ("host", "80") = none :=
  connect_new_conn_in_queue_iff_key_absent [] ("host", "80") 10 100 1 rfl

/-! ## REST client knobs (RESTUtils.actor.cpp) -/

/-- RESTClientKnobs: the six tunable int knobs of the REST client. -/
structure RESTClientKnobs where
  connection_pool_size : Int
  connect_tries : Int
  connect_timeout : Int
  max_connection_life : Int
  request_tries : Int
  request_timeout_secs : Int
deriving DecidableEq, Repr

/-- The knobMap of the RESTClientKnobs constructor: each long name and its
short alias maps to a knob field; an unknown name yields none (the caller
throws rest_invalid_rest_client_knob). Assigning through the mapped pointer
is modelled by returning the updated structure. -/
def knobAssign (k : RESTClientKnobs) (name : String) (v : Int) : Option RESTClientKnobs :=
  if name = "connection_pool_size" ∨ name = "pz" then
    some ⟨v, k.connect_tries, k.connect_timeout, k.max_connection_life,
      k.request_tries, k.request_timeout_secs⟩
  else if name = "connect_tries" ∨ name = "ct" then
    some ⟨k.connection_pool_size, v, k.connect_timeout, k.max_connection_life,
      k.request_tries, k.request_timeout_secs⟩
  else if name = "connect_timeout" ∨ name = "cto" then
    some ⟨k.connection_pool_size, k.connect_tries, v, k.max_connection_life,
      k.request_tries, k.request_timeout_secs⟩
  else if name = "max_connection_life" ∨ name = "mcl" then
    some ⟨k.connection_pool_size, k.connect_tries, k.connect_timeout, v,
      k.request_tries, k.request_timeout_secs⟩
  else if name = "request_tries" ∨ name = "rt" then
    some ⟨k.connection_pool_size, k.connect_tries, k.connect_timeout,
      k.max_connection_life, v, k.request_timeout_secs⟩
  else if name = "request_timeout_secs" ∨ name = "rtom" then
    some ⟨k.connection_pool_size, k.connect_tries, k.connect_timeout,
      k.max_connection_life, k.request_tries, v⟩
  else none

/-- RESTClientKnobs::set: the entries of knobSettings are applied one at a
time in iteration order; on the first unknown name the loop throws
rest_invalid_rest_client_knob, leaving every entry applied before that point
in effect. The result is the knobs object as left behind together with the
thrown error, if any. -/
def RESTClientKnobs.set (k : RESTClientKnobs) :
    List (String × Int) → RESTClientKnobs × Option RESTError
  | [] => (k, none)
  | (name, v) :: rest =>
    match knobAssign k name v with
    | some k' => RESTClientKnobs.set k' rest
    | none => (k, some .invalidClientKnob)

/-- C10: RESTClientKnobs::set is not atomic on failure: an input holding a
valid connection_pool_size entry followed by an unknown name throws
rest_invalid_rest_client_knob, yet leaves connection_pool_size changed to
the new value, so the knobs differ from their initial state. -/
theorem rest_knobs_set_not_atomic (k : RESTClientKnobs) (v : Int)
    (hv : v ≠ k.connection_pool_size) :
    (RESTClientKnobs.set k [("connection_pool_size", v), ("no_such_knob", 0)]).2 =
        some RESTError.invalidClientKnob ∧
    (RESTClientKnobs.set k [("connection_pool_size", v), ("no_such_knob", 0)]).1 ≠ k := by
  refine ⟨rfl, fun hEq => ?_⟩
  exact hv (congrArg RESTClientKnobs.connection_pool_size hEq)

/-- Witness for the C10 theorem at a concrete input. -/
theorem rest_knobs_set_not_atomic_witness :
    (RESTClientKnobs.set ⟨10, 10, 10, 10, 10, 10⟩
        [("connection_pool_size", 42), ("no_such_knob", 0)]).2 =
          some RESTError.invalidClientKnob ∧
    (RESTClientKnobs.set ⟨10, 10, 10, 10, 10, 10⟩
        [("connection_pool_size", 42), ("no_such_knob", 0)]).1 ≠ ⟨10, 10, 10, 10, 10, 10⟩ :=
  rest_knobs_set_not_atomic ⟨10, 10, 10, 10, 10, 10⟩ 42 (by decide)

/-! ## EKP error classification and handler catch blocks
(EncryptKeyProxy.actor.cpp) -/

/-- The error codes relevant to the EKP handlers; the last two stand for the
non-replyable errors reaching the catch blocks. -/
inductive EKPError where
  | encryptKeyNotFound
  | encryptKeysFetchFailed
  | timedOut
  | connectionFailed
  | notImplemented
  | internalError
deriving DecidableEq, Repr

/-- canReplyWith from EncryptKeyProxy.actor.cpp. -/
def canReplyWith : EKPError → Bool
  | .encryptKeyNotFound => true
  | .encryptKeysFetchFailed => true
  | .timedOut => true
  | .connectionFailed => true
  | _ => false

/-- Outcome of the catch block of the two cipher-key handlers. -/
inductive CipherCatchOutcome where
  | repliedWithError (e : EKPError)
  | rethrown (e : EKPError)
deriving DecidableEq, Repr

/-- The catch block shared by getCipherKeysByBaseCipherKeyIds and
getLatestCipherKeys: a replyable error is packaged by sendErrorResponse,
which increments numResponseWithErrors and sends a reply whose error field
holds the error, and the handler returns normally; any other error is
rethrown. The Nat is the numResponseWithErrors counter before and after. -/
def cipherHandlerOnError (e : EKPError) (numResponseWithErrors : Nat) :
    CipherCatchOutcome × Nat :=
  if canReplyWith e then (.repliedWithError e, numResponseWithErrors + 1)
  else (.rethrown e, numResponseWithErrors)

/-- Outcome of the catch block of getLatestBlobMetadata. -/
inductive BlobCatchOutcome where
  | sentErrorReply (e : EKPError)
  | rethrown (e : EKPError)
deriving DecidableEq, Repr

/-- The catch block of getLatestBlobMetadata: a replyable error is sent to
the caller with req.reply.sendError, without touching numResponseWithErrors;
any other error is rethrown. -/
def blobHandlerOnError (e : EKPError) (numResponseWithErrors : Nat) :
    BlobCatchOutcome × Nat :=
  if canReplyWith e then (.sentErrorReply e, numResponseWithErrors)
  else (.rethrown e, numResponseWithErrors)

/-- C5 counterexample: timed_out is in the replyable set, yet the
blob-metadata handler does not increment numResponseWithErrors as the claim
states (the counter stays 0); it sends the error itself rather than a reply
carrying an error field. -/
theorem blob_handler_error_counter_cex :
    canReplyWith .timedOut = true ∧
    ¬ ((blobHandlerOnError .timedOut 0).2 = 0 + 1) ∧
    (blobHandlerOnError .timedOut 0).1 = .sentErrorReply .timedOut := by
  decide

/-- C5 amended: the replyable set is exactly the four listed errors; on a
replyable KMS error the two cipher-key handlers package the error into the
reply error field and increment numResponseWithErrors, while the
blob-metadata handler sends the error with sendError leaving the counter
unchanged; every non-replyable error is rethrown by all three handlers with
the counter unchanged. -/
theorem handler_error_classification (e : EKPError) (n : Nat) :
    (canReplyWith e = true ↔
      (e = .encryptKeyNotFound ∨ e = .encryptKeysFetchFailed ∨
        e = .timedOut ∨ e = .connectionFailed)) ∧
    (canReplyWith e = true →
      cipherHandlerOnError e n = (.repliedWithError e, n + 1) ∧
      blobHandlerOnError e n = (.sentErrorReply e, n)) ∧
    (canReplyWith e = false →
      cipherHandlerOnError e n = (.rethrown e, n) ∧
      blobHandlerOnError e n = (.rethrown e, n)) := by
  cases e <;> simp [canReplyWith, cipherHandlerOnError, blobHandlerOnError]

/-- Witness for the C5 amended theorem at a concrete replyable error. -/
theorem handler_error_classification_witness :
    cipherHandlerOnError .timedOut 5 = (.repliedWithError .timedOut, 6) ∧
    blobHandlerOnError .timedOut 5 = (.sentErrorReply .timedOut, 5) :=
  (handler_error_classification .timedOut 5).2.1 rfl

/-! ## EKP cipher caches and refresher sweep (EncryptKeyProxy.actor.cpp) -/

/-- EncryptBaseCipherKey from EncryptKeyProxy.actor.cpp; key bytes are a
list of byte values. -/
structure EncryptBaseCipherKey where
  domainId : Int
  baseCipherId : Int
  baseCipherKey : List Nat
  refreshAt : Int
  expireAt : Int
deriving DecidableEq, Repr

/-- EncryptBaseCipherKey.isValid evaluated at time currTS. -/
def EncryptBaseCipherKey.isValid (e : EncryptBaseCipherKey) (currTS : Int) : Bool :=
  e.expireAt > currTS && e.refreshAt > currTS

/-- EncryptBaseCipherKey.isExpired evaluated at time currTS. -/
def EncryptBaseCipherKey.isExpired (e : EncryptBaseCipherKey) (currTS : Int) : Bool :=
  currTS > e.expireAt

/-- Association-list assignment: operator[] on a std map followed by an
assignment, replacing the mapped value or appending a new binding. -/
def assocSet {α β : Type} [DecidableEq α] : List (α × β) → α → β → List (α × β)
  | [], k, v => [(k, v)]
  | (k', v') :: rest, k, v =>
    if k' = k then (k, v) :: rest else (k', v') :: assocSet rest k v

/-- std::unordered_map::find on an association list. -/
def assocFind {α β : Type} [DecidableEq α] : List (α × β) → α → Option β
  | [], _ => none
  | (k', v') :: rest, k => if k' = k then some v' else assocFind rest k

/-- The two cipher caches of EncryptKeyProxyData (the blob metadata cache is
modelled separately below). -/
structure EKPState where
  baseCipherDomainIdCache : List (Int × EncryptBaseCipherKey)
  baseCipherDomainIdKeyIdCache : List ((Int × Int) × EncryptBaseCipherKey)
deriving DecidableEq, Repr

/-- The caches start empty when the EKP starts. -/
def initialEKPState : EKPState := ⟨[], []⟩

/-- EncryptKeyProxyData::insertIntoBaseCipherIdCache: writes the by-id cache
under the (domainId, baseCipherId) key with the given timestamps. -/
def insertIntoBaseCipherIdCache (s : EKPState) (domainId baseCipherId : Int)
    (baseCipherKey : List Nat) (refreshAtTS expireAtTS : Int) : EKPState :=
  ⟨s.baseCipherDomainIdCache,
    assocSet s.baseCipherDomainIdKeyIdCache (domainId, baseCipherId)
      ⟨domainId, baseCipherId, baseCipherKey, refreshAtTS, expireAtTS⟩⟩

/-- EncryptKeyProxyData::insertIntoBaseDomainIdCache: overwrites the latest
cache entry for the domain and also populates the by-id cache, forcing
refreshAt there to the int64 max sentinel. -/
def insertIntoBaseDomainIdCache (s : EKPState) (domainId baseCipherId : Int)
    (baseCipherKey : List Nat) (refreshAtTS expireAtTS : Int) : EKPState :=
  let s1 : EKPState :=
    ⟨assocSet s.baseCipherDomainIdCache domainId
        ⟨domainId, baseCipherId, baseCipherKey, refreshAtTS, expireAtTS⟩,
      s.baseCipherDomainIdKeyIdCache⟩
  insertIntoBaseCipherIdCache s1 domainId baseCipherId baseCipherKey int64Max expireAtTS

/-- isCipherKeyEligibleForRefresh, with the BUGGIFY test hook disabled as in
production; refreshInterval models FLOW_KNOBS.ENCRYPT_KEY_REFRESH_INTERVAL. -/
def isCipherKeyEligibleForRefresh (cipherKey : EncryptBaseCipherKey)
    (currTS refreshInterval : Int) : Bool :=
  let nextRefreshCycleTS := currTS + refreshInterval
  nextRefreshCycleTS > cipherKey.expireAt || nextRefreshCycleTS > cipherKey.refreshAt

/-- The walk of refreshEncryptionKeysImpl over the latest cache: collects
the domain ids eligible for refresh and erases the entries for which
isExpired holds at the walk timestamp (currTS > expireAt). -/
def refreshEKsWalk (currTS refreshInterval : Int) :
    List (Int × EncryptBaseCipherKey) → List Int × List (Int × EncryptBaseCipherKey)
  | [] => ([], [])
  | (d, e) :: rest =>
    let (ids, cache) := refreshEKsWalk currTS refreshInterval rest
    let ids' :=
      if isCipherKeyEligibleForRefresh e currTS refreshInterval then d :: ids else ids
    if currTS > e.expireAt then (ids', cache) else (ids', (d, e) :: cache)

/-- One item of a KMS lookup-by-domain-ids response. -/
structure KmsCipherKeyDetails where
  encryptDomainId : Int
  encryptKeyId : Int
  encryptKey : List Nat
  refreshAfterSec : Option Int
  expireAfterSec : Option Int
deriving DecidableEq, Repr

/-- The response loop of refreshEncryptionKeysImpl: each returned item whose
domain id is still present in the latest cache is upserted through
insertIntoBaseDomainIdCache with validity computed at fetch-return time
fetchTS; items whose domain id is not found are skipped. -/
def refreshEKsUpsert (resp : List KmsCipherKeyDetails) (fetchTS defaultTTL : Int)
    (s : EKPState) : EKPState :=
  resp.foldl
    (fun st item =>
      match assocFind st.baseCipherDomainIdCache item.encryptDomainId with
      | none => st
      | some _ =>
        let validityTS :=
          getCipherKeyValidityTS item.refreshAfterSec item.expireAfterSec fetchTS defaultTTL
        insertIntoBaseDomainIdCache st item.encryptDomainId item.encryptKeyId
          item.encryptKey validityTS.refreshAtTS validityTS.expAtTS)
    s

/-- One run of refreshEncryptionKeysImpl on the cipher caches: the GC walk
at time currTS followed by the upsert of the KMS response, whose arrival
time is fetchTS (the KMS fetch suspends, so fetchTS ≥ currTS at runtime). -/
def refreshEncryptionKeysRun (s : EKPState) (currTS refreshInterval : Int)
    (resp : List KmsCipherKeyDetails) (fetchTS defaultTTL : Int) : EKPState :=
  let s1 : EKPState :=
    ⟨(refreshEKsWalk currTS refreshInterval s.baseCipherDomainIdCache).2,
      s.baseCipherDomainIdKeyIdCache⟩
  refreshEKsUpsert resp fetchTS defaultTTL s1

theorem mem_assocSet {α β : Type} [DecidableEq α] (l : List (α × β)) (k : α) (v : β)
    (p : α × β) (hp : p ∈ assocSet l k v) : p ∈ l ∨ p = (k, v) := by
  induction l with
  | nil =>
    simp [assocSet] at hp
    exact Or.inr hp
  | cons hd tl ih =>
    obtain ⟨k', v'⟩ := hd
    by_cases h : k' = k
    · simp only [assocSet, h, if_true] at hp
      rcases List.mem_cons.mp hp with h1 | h1
      · exact Or.inr h1
      · exact Or.inl (List.mem_cons_of_mem _ h1)
    · simp only [assocSet, h, if_false] at hp
      rcases List.mem_cons.mp hp with h1 | h1
      · exact Or.inl (h1 ▸ List.mem_cons_self _ _)
      · rcases ih h1 with h2 | h2
        · exact Or.inl (List.mem_cons_of_mem _ h2)
        · exact Or.inr h2

theorem mem_refreshEKsWalk (currTS refreshInterval : Int)
    (cache : List (Int × EncryptBaseCipherKey)) (p : Int × EncryptBaseCipherKey)
    (hp : p ∈ (refreshEKsWalk currTS refreshInterval cache).2) :
    p ∈ cache ∧ ¬ (currTS > p.2.expireAt) := by
  induction cache with
  | nil => simp [refreshEKsWalk] at hp
  | cons hd tl ih =>
    obtain ⟨d, e⟩ := hd
    by_cases h : currTS > e.expireAt
    · simp only [refreshEKsWalk, h, if_true] at hp
      obtain ⟨h1, h2⟩ := ih hp
      exact ⟨List.mem_cons_of_mem _ h1, h2⟩
    · simp only [refreshEKsWalk, h, if_false] at hp
      rcases List.mem_cons.mp hp with h1 | h1
      · subst h1
        exact ⟨List.mem_cons_self _ _, h⟩
      · obtain ⟨h2, h3⟩ := ih h1
        exact ⟨List.mem_cons_of_mem _ h2, h3⟩

theorem mem_refreshEKsUpsert (resp : List KmsCipherKeyDetails) (fetchTS defaultTTL : Int)
    (s : EKPState) (p : Int × EncryptBaseCipherKey)
    (hp : p ∈ (refreshEKsUpsert resp fetchTS defaultTTL s).baseCipherDomainIdCache) :
    p ∈ s.baseCipherDomainIdCache ∨ ∃ item ∈ resp, p.1 = item.encryptDomainId := by
  induction resp generalizing s with
  | nil => exact Or.inl hp
  | cons item rest ih =>
    have hstep :
        refreshEKsUpsert (item :: rest) fetchTS defaultTTL s =
          refreshEKsUpsert rest fetchTS defaultTTL
            (match assocFind s.baseCipherDomainIdCache item.encryptDomainId with
             | none => s
             | some _ =>
               let validityTS :=
                 getCipherKeyValidityTS item.refreshAfterSec item.expireAfterSec fetchTS defaultTTL
               insertIntoBaseDomainIdCache s item.encryptDomainId item.encryptKeyId
                 item.encryptKey validityTS.refreshAtTS validityTS.expAtTS) := rfl
    rw [hstep] at hp
    cases hfind : assocFind s.baseCipherDomainIdCache item.encryptDomainId with
    | none =>
      rw [hfind] at hp
      rcases ih _ hp with h1 | ⟨it, hit, heq⟩
      · exact Or.inl h1
      · exact Or.inr ⟨it, List.mem_cons_of_mem _ hit, heq⟩
    | some entry =>
      rw [hfind] at hp
      rcases ih _ hp with h1 | ⟨it, hit, heq⟩
      · rcases mem_assocSet _ _ _ _ h1 with h2 | h2
        · exact Or.inl h2
        · exact Or.inr ⟨item, List.mem_cons_self _ _, by rw [h2]⟩
      · exact Or.inr ⟨it, List.mem_cons_of_mem _ hit, heq⟩

/-- The latest-cache entry used by the C3 counterexample: expireAt equals
the sweep timestamp 100. -/
def cexCipherEntry : EncryptBaseCipherKey := ⟨1, 1, [], 200, 100⟩

/-- C3 counterexample: an entry whose expireAt equals the sweep timestamp
survives the refresher run untouched (isExpired is strict and the KMS
response is empty), so at run-completion time 100 the surviving entry does
not satisfy expireAt > 100 — an expired entry survived the sweep. -/
theorem refresh_eks_expired_entry_survives_cex :
    (refreshEncryptionKeysRun ⟨[(1, cexCipherEntry)], []⟩ 100 10 [] 100
        10).baseCipherDomainIdCache = [(1, cexCipherEntry)] ∧
    ¬ (cexCipherEntry.expireAt > 100) := by
  exact ⟨rfl, by decide⟩

/-- C3 amended: after a refresher run every entry remaining in the latest
cache either carries a domain id occurring in the KMS response (it was
upserted) or survived the GC walk, in which case its expireAt is at least
the walk timestamp currTS. The GC predicate is strict (now > expireAt), so
an entry with expireAt equal to the sweep timestamp, or whose expireAt
passes during the KMS fetch without the KMS returning that domain, survives
the run even though it is expired at completion time. -/
theorem refresh_eks_survivor_bound
    (s : EKPState) (currTS refreshInterval : Int) (resp : List KmsCipherKeyDetails)
    (fetchTS defaultTTL : Int) (p : Int × EncryptBaseCipherKey)
    (hp : p ∈ (refreshEncryptionKeysRun s currTS refreshInterval resp fetchTS
        defaultTTL).baseCipherDomainIdCache) :
    p.2.expireAt ≥ currTS ∨ ∃ item ∈ resp, p.1 = item.encryptDomainId := by
  rcases mem_refreshEKsUpsert resp fetchTS defaultTTL _ p hp with h1 | h2
  · obtain ⟨_, h3⟩ := mem_refreshEKsWalk currTS refreshInterval _ p h1
    exact Or.inl (by omega)
  · exact Or.inr h2

/-- Witness for the amended C3 theorem at a concrete input. -/
theorem refresh_eks_survivor_bound_witness :
    cexCipherEntry.expireAt ≥ 100 ∨
      ∃ item ∈ ([] : List KmsCipherKeyDetails), (1 : Int) = item.encryptDomainId :=
  refresh_eks_survivor_bound ⟨[(1, cexCipherEntry)], []⟩ 100 10 [] 100 10
    (1, cexCipherEntry) (by decide)

/-! ## By-id cache sentinel invariant (C6) -/

/-- The cache-writing operations of the EKP: the by-id handler insert after
a KMS fetch (the source passes refresh hint -1), the latest-key insert used
by the latest-keys handler and the refresher, and the refresher run itself. -/
inductive EKPOp where
  | byIdHandlerInsert (domainId baseCipherId : Int) (key : List Nat)
      (expireAfterSec : Option Int) (currTS defaultTTL : Int)
  | latestInsert (domainId baseCipherId : Int) (key : List Nat)
      (refreshAfterSec expireAfterSec : Option Int) (currTS defaultTTL : Int)
  | refresherRun (currTS refreshInterval : Int) (resp : List KmsCipherKeyDetails)
      (fetchTS defaultTTL : Int)
deriving Repr

/-- Effect of one operation on the cipher caches, as in the source. -/
def applyEKPOp (s : EKPState) : EKPOp → EKPState
  | .byIdHandlerInsert d k key exp currTS ttl =>
    let validityTS := getCipherKeyValidityTS (some (-1)) exp currTS ttl
    insertIntoBaseCipherIdCache s d k key validityTS.refreshAtTS validityTS.expAtTS
  | .latestInsert d k key r e currTS ttl =>
    let validityTS := getCipherKeyValidityTS r e currTS ttl
    insertIntoBaseDomainIdCache s d k key validityTS.refreshAtTS validityTS.expAtTS
  | .refresherRun currTS interval resp fetchTS ttl =>
    refreshEncryptionKeysRun s currTS interval resp fetchTS ttl

/-- A sequence of operations applied in order. -/
def applyEKPOps (s : EKPState) (ops : List EKPOp) : EKPState :=
  ops.foldl applyEKPOp s

/-- The by-id cache invariant: every entry has refreshAt equal to the int64
max sentinel. -/
def byIdRefreshSentinel (s : EKPState) : Bool :=
  s.baseCipherDomainIdKeyIdCache.all (fun p => p.2.refreshAt == int64Max)

theorem all_assocSet {α β : Type} [DecidableEq α] (l : List (α × β)) (k : α) (v : β)
    (pred : α × β → Bool) (hl : l.all pred = true) (hv : pred (k, v) = true) :
    (assocSet l k v).all pred = true := by
  induction l with
  | nil => simp [assocSet, hv]
  | cons hd tl ih =>
    obtain ⟨k', v'⟩ := hd
    rw [List.all_cons, Bool.and_eq_true] at hl
    by_cases h : k' = k
    · simp [assocSet, h, hv, hl.2]
    · simp [assocSet, h, hl.1, ih hl.2]

theorem byIdRefreshSentinel_insertIntoBaseCipherIdCache (s : EKPState)
    (d k : Int) (key : List Nat) (e : Int) (h : byIdRefreshSentinel s = true) :
    byIdRefreshSentinel (insertIntoBaseCipherIdCache s d k key int64Max e) = true := by
  exact all_assocSet _ _ _ _ h (by simp)

theorem byIdRefreshSentinel_insertIntoBaseDomainIdCache (s : EKPState)
    (d k : Int) (key : List Nat) (r e : Int) (h : byIdRefreshSentinel s = true) :
    byIdRefreshSentinel (insertIntoBaseDomainIdCache s d k key r e) = true := by
  exact byIdRefreshSentinel_insertIntoBaseCipherIdCache _ d k key e h

theorem byIdRefreshSentinel_refreshEKsUpsert (resp : List KmsCipherKeyDetails)
    (fetchTS defaultTTL : Int) (s : EKPState) (h : byIdRefreshSentinel s = true) :
    byIdRefreshSentinel (refreshEKsUpsert resp fetchTS defaultTTL s) = true := by
  induction resp generalizing s with
  | nil => exact h
  | cons item rest ih =>
    cases hfind : assocFind s.baseCipherDomainIdCache item.encryptDomainId with
    | none =>
      have hstep : refreshEKsUpsert (item :: rest) fetchTS defaultTTL s =
          refreshEKsUpsert rest fetchTS defaultTTL s := by
        simp only [refreshEKsUpsert, List.foldl_cons, hfind]
      rw [hstep]
      exact ih s h
    | some entry =>
      have hstep : refreshEKsUpsert (item :: rest) fetchTS defaultTTL s =
          refreshEKsUpsert rest fetchTS defaultTTL
            (let validityTS :=
              getCipherKeyValidityTS item.refreshAfterSec item.expireAfterSec fetchTS defaultTTL
             insertIntoBaseDomainIdCache s item.encryptDomainId item.encryptKeyId
               item.encryptKey validityTS.refreshAtTS validityTS.expAtTS) := by
        simp only [refreshEKsUpsert, List.foldl_cons, hfind]
      rw [hstep]
      exact ih _ (byIdRefreshSentinel_insertIntoBaseDomainIdCache _ _ _ _ _ _ h)

theorem byIdRefreshSentinel_applyEKPOp (s : EKPState) (op : EKPOp)
    (h : byIdRefreshSentinel s = true) : byIdRefreshSentinel (applyEKPOp s op) = true := by
  cases op with
  | byIdHandlerInsert d k key exp currTS ttl =>
    have hr : (getCipherKeyValidityTS (some (-1)) exp currTS ttl).refreshAtTS = int64Max := by
      norm_num [getCipherKeyValidityTS, computeCipherRefreshTS]
    simp only [applyEKPOp, hr]
    exact byIdRefreshSentinel_insertIntoBaseCipherIdCache _ _ _ _ _ h
  | latestInsert d k key r e currTS ttl =>
    exact byIdRefreshSentinel_insertIntoBaseDomainIdCache _ _ _ _ _ _ h
  | refresherRun currTS interval resp fetchTS ttl =>
    exact byIdRefreshSentinel_refreshEKsUpsert _ _ _ _ h

/-- C6: starting from the empty EKP state, after any sequence of cache
operations every entry of the by-id (domainId, baseCipherId) cipher cache
has refreshAt equal to the int64 max sentinel: the by-id handler passes the
refresh hint -1, which the validity calculator maps to the sentinel, and the
latest-key insertion path passes the sentinel explicitly. -/
theorem by_id_cache_refresh_at_sentinel (ops : List EKPOp) :
    byIdRefreshSentinel (applyEKPOps initialEKPState ops) = true := by
  have hgen : ∀ (ops : List EKPOp) (s : EKPState), byIdRefreshSentinel s = true →
      byIdRefreshSentinel (applyEKPOps s ops) = true := by
    intro ops
    induction ops with
    | nil => intro s h; exact h
    | cons op rest ih =>
      intro s h
      exact ih _ (byIdRefreshSentinel_applyEKPOp s op h)
  exact hgen ops initialEKPState rfl

/-! ## Blob metadata cache and its refresher walk (C2) -/

/-- BlobMetadataDetailsRef: the KMS-provided blob metadata with its own
refresh and expire timestamps (locations abstracted as numeric ids). -/
structure BlobMetadataDetails where
  domainId : Int
  locations : List Nat
  refreshAt : Int
  expireAt : Int
deriving DecidableEq, Repr

/-- BlobMetadataCacheEntry from EncryptKeyProxy.actor.cpp. -/
structure BlobMetadataCacheEntry where
  metadataDetails : BlobMetadataDetails
  creationTimeSec : Int
deriving DecidableEq, Repr

/-- isBlobMetadataEligibleForRefresh, with the BUGGIFY test hook disabled;
refreshInterval models CLIENT_KNOBS.BLOB_METADATA_REFRESH_INTERVAL. -/
def isBlobMetadataEligibleForRefresh (blobMetadata : BlobMetadataDetails)
    (currTS refreshInterval : Int) : Bool :=
  let nextRefreshCycleTS := currTS + refreshInterval
  nextRefreshCycleTS > blobMetadata.expireAt || nextRefreshCycleTS > blobMetadata.refreshAt

/-- The walk of refreshBlobMetadataCore over the blob metadata cache:
collects the domain ids eligible for refresh and erases every entry with
metadataDetails.expireAt ≥ currTS — the garbage-collection predicate exactly
as written in the source. -/
def refreshBlobMetadataWalk (currTS refreshInterval : Int) :
    List (Int × BlobMetadataCacheEntry) → List Int × List (Int × BlobMetadataCacheEntry)
  | [] => ([], [])
  | (d, entry) :: rest =>
    let (ids, cache) := refreshBlobMetadataWalk currTS refreshInterval rest
    let ids' :=
      if isBlobMetadataEligibleForRefresh entry.metadataDetails currTS refreshInterval then
        d :: ids
      else ids
    if entry.metadataDetails.expireAt ≥ currTS then (ids', cache)
    else (ids', (d, entry) :: cache)

/-- C2: during a sweep of the blob-metadata refresher a cached entry is
erased exactly when metadataDetails.expireAt ≥ currTS and retained exactly
when metadataDetails.expireAt < currTS: the cache left behind by the walk is
the filter keeping the entries with expireAt strictly below the sweep
timestamp — the sweep erases the non-expired entries and keeps the expired
ones. -/
theorem blob_gc_erases_nonexpired (cache : List (Int × BlobMetadataCacheEntry))
    (currTS refreshInterval : Int) :
    (refreshBlobMetadataWalk currTS refreshInterval cache).2 =
      cache.filter (fun p => decide (p.2.metadataDetails.expireAt < currTS)) := by
  induction cache with
  | nil => rfl
  | cons hd tl ih =>
    obtain ⟨d, entry⟩ := hd
    by_cases h : entry.metadataDetails.expireAt ≥ currTS
    · have hlt : ¬ (entry.metadataDetails.expireAt < currTS) := not_lt.mpr h
      simp [refreshBlobMetadataWalk, h, hlt, List.filter_cons, ih]
    · have hlt : entry.metadataDetails.expireAt < currTS := not_le.mp h
      simp [refreshBlobMetadataWalk, h, hlt, List.filter_cons, ih]

end FDB
